import Mathlib

/-!
Verification of the zeroization primitive of the repository
(Sources/CUtil/zeroize.c and zeroize.h).

The C source is:

  void c_zeroize(void *s, size_t n)
  {
      // We'd prefer to use memset_s if possible, since the compiler shouldn't
      // optimize that away. If it's not available, we use a memory barrier as
      // a best effort to prevent optimization
      memset(s, 0, n);
      __asm__ __volatile__("" : : "r"(s) : "memory");
  }

We embed memory as a total map from byte addresses to byte values,
`memset` as the byte-by-byte store loop it performs over `[s, s + n)`,
and the inline-assembly barrier as the identity on memory (it contains
no instructions and performs no store; its role is confined to compile
time, constraining the optimizer).
-/

/-- A memory state: a total map from byte addresses to stored values.
Only the value 0 is ever written by the code under study, so byte values
are modelled as plain naturals. -/
def Mem : Type := Nat → Nat

/-- Store value `v` at address `a`, leaving every other address unchanged. -/
def store (mem : Mem) (a v : Nat) : Mem :=
  fun x => if x = a then v else mem x

/-- The libc `memset(s, c, n)` call made on line 22 of zeroize.c: write the
byte `c` to each of the `n` addresses `s, s + 1, ..., s + n - 1`. -/
def memset (mem : Mem) (s c n : Nat) : Mem :=
  match n with
  | 0 => mem
  | m + 1 => memset (store mem s c) (s + 1) c m

/-- The inline-assembly barrier on line 23 of zeroize.c,
`__asm__ __volatile__("" : : "r"(s) : "memory")`: an empty instruction
sequence that reads the address operand and clobbers memory at compile
time; at run time it executes nothing and stores nothing, so its effect
on the memory state is the identity. -/
def barrier (mem : Mem) (s : Nat) : Mem := mem

/-- The effect of `c_zeroize(s, n)` on memory: `memset(s, 0, n)` followed
by the barrier (zeroize.c lines 18-24). -/
def c_zeroize (mem : Mem) (s n : Nat) : Mem :=
  barrier (memset mem s 0 n) s

/-- The observable outcome of one call to `c_zeroize`: the C function has
return type `void` (zeroize.h line 23), so the caller observes the unit
return value together with the mutated memory, and nothing else — there
is no error value in the signature. -/
def c_zeroize_call (mem : Mem) (s n : Nat) : Unit × Mem :=
  ((), c_zeroize mem s n)

/-- The intended region semantics, stated directly: every byte of
`[s, s + n)` is zero and every other byte is untouched. Used as the
target of the characterization lemma for `c_zeroize`. -/
def zeroizeRegion (mem : Mem) (s n : Nat) : Mem :=
  fun a => if s ≤ a ∧ a < s + n then 0 else mem a

/-- The possible bulk zero-fill primitives the spec discusses: the
toolchain-certified `memset_s`, or a plain `memset` followed by the
barrier. -/
inductive BulkZeroPrimitive where
  | memset_s : BulkZeroPrimitive
  | plainMemset : BulkZeroPrimitive
deriving DecidableEq

/-- Which bulk primitive `c_zeroize` invokes, as a function of whether the
toolchain provides `memset_s`. The source calls `memset` unconditionally
(zeroize.c line 22); there is no conditional compilation, and the
preference for `memset_s` appears only in the comment on lines 20-21.
Hence the choice does not depend on availability. -/
def c_zeroize_bulkPrimitive (memset_s_available : Bool) : BulkZeroPrimitive :=
  BulkZeroPrimitive.plainMemset

/-- Run a sequence of `c_zeroize` calls, each given by an (address, length)
pair, from an initial memory state. The C function keeps no static or
global state, so a call history is fully summarized by the memory state
it produces. -/
def runCalls (mem : Mem) (calls : List (Nat × Nat)) : Mem :=
  calls.foldl (fun m c => c_zeroize m c.1 c.2) mem

/-- A concrete memory state holding 0xFF everywhere, for witnesses. -/
def mOnes : Mem := fun _ => 255

/-- A concrete memory state agreeing with `mOnes` outside `[2, 5)` but
holding a different (secret) value inside, for witnesses. -/
def mSecret : Mem := fun a => if 2 ≤ a ∧ a < 5 then 7 else 255

/-- Pointwise characterization of the `memset` loop: address `a` holds `c`
after `memset(s, c, n)` exactly when `s ≤ a < s + n`, and is unchanged
otherwise. -/
theorem memset_apply (c : Nat) :
    ∀ (n : Nat) (mem : Mem) (s a : Nat),
      memset mem s c n a = if s ≤ a ∧ a < s + n then c else mem a := by
  intro n
  induction n with
  | zero =>
      intro mem s a
      simp only [memset]
      rw [if_neg (by omega : ¬(s ≤ a ∧ a < s + 0))]
  | succ k ih =>
      intro mem s a
      simp only [memset]
      rw [ih]
      simp only [store]
      split_ifs <;> first | rfl | (exfalso; omega)

/-- Pointwise characterization of `c_zeroize`: the barrier stores nothing,
so the memory produced is exactly that of `memset(s, 0, n)`. -/
theorem c_zeroize_apply (mem : Mem) (s n a : Nat) :
    c_zeroize mem s n a = if s ≤ a ∧ a < s + n then 0 else mem a :=
  memset_apply 0 n mem s a

/-- `c_zeroize` realizes the region semantics `zeroizeRegion` on every
input, valid or not. -/
theorem c_zeroize_eq (mem : Mem) (s n : Nat) :
    c_zeroize mem s n = zeroizeRegion mem s n := by
  funext a
  exact c_zeroize_apply mem s n a

/-- C1: for every region of length at least 1 and every initial memory
contents, after `c_zeroize(s, n)` every byte in `[s, s + n)` holds zero. -/
theorem c_zeroize_zeroes_region (mem : Mem) (s n : Nat) (hn : 1 ≤ n)
    (a : Nat) (h1 : s ≤ a) (h2 : a < s + n) :
    c_zeroize mem s n a = 0 := by
  rw [c_zeroize_apply]
  exact if_pos ⟨h1, h2⟩

/-- C1 witness: on a 32-byte buffer of 0xFF starting at address 4, the byte
at address 10 is zero after the call. -/
theorem c_zeroize_zeroes_region_witness :
    c_zeroize mOnes 4 32 10 = 0 :=
  c_zeroize_zeroes_region mOnes 4 32 (by decide) 10 (by decide) (by decide)

/-- C2: a call with length 0 leaves the entire memory state unchanged:
the `memset` loop performs no store and the barrier performs none either. -/
theorem c_zeroize_len_zero (mem : Mem) (s : Nat) :
    c_zeroize mem s 0 = mem := rfl

/-- C3 counterexample: even when the toolchain provides `memset_s`, the
implementation does not use it for the bulk overwrite — `memset` is
called unconditionally on zeroize.c line 22. -/
theorem c_zeroize_bulkPrimitive_not_memset_s :
    ¬(c_zeroize_bulkPrimitive true = BulkZeroPrimitive.memset_s) := by
  decide

/-- C3 amended: on every platform the bulk overwrite is performed by plain
`memset` followed by the inline-assembly barrier, never by `memset_s`
(the source expresses the preference for `memset_s` only in a comment);
this fallback still zeroes exactly the addressed region. -/
theorem c_zeroize_bulkPrimitive_always_plain (memset_s_available : Bool) :
    c_zeroize_bulkPrimitive memset_s_available = BulkZeroPrimitive.plainMemset ∧
      ∀ (mem : Mem) (s n : Nat), c_zeroize mem s n = zeroizeRegion mem s n :=
  ⟨rfl, fun mem s n => c_zeroize_eq mem s n⟩

/-- C4: `c_zeroize` mutates nothing outside `[s, s + n)`: every byte at an
address below `s` or at `s + n` and beyond holds its prior value. The
embedding is a pure memory transformer: the call allocates nothing, frees
nothing, and retains nothing. -/
theorem c_zeroize_frame (mem : Mem) (s n a : Nat)
    (h : a < s ∨ s + n ≤ a) :
    c_zeroize mem s n a = mem a := by
  rw [c_zeroize_apply]
  exact if_neg (by omega)

/-- C4 witness: zeroizing 32 bytes at address 4 leaves the byte at
address 40 (just past the region) holding its prior value 0xFF. -/
theorem c_zeroize_frame_witness :
    c_zeroize mOnes 4 32 40 = mOnes 40 :=
  c_zeroize_frame mOnes 4 32 40 (by decide)

/-- C5: `c_zeroize` is idempotent: calling it twice on the same region
yields exactly the memory state of a single call. -/
theorem c_zeroize_idempotent (mem : Mem) (s n : Nat) :
    c_zeroize (c_zeroize mem s n) s n = c_zeroize mem s n := by
  funext a
  simp only [c_zeroize_apply]
  split_ifs <;> rfl

/-- C6: for every input pair, the call returns the unit value and the
zeroized memory — total, with no error value in the outcome and no
branch detecting or reporting an invalid pair: every `(s, n)` is treated
uniformly by the same region semantics. -/
theorem c_zeroize_no_error_channel (mem : Mem) (s n : Nat) :
    c_zeroize_call mem s n = ((), zeroizeRegion mem s n) := by
  unfold c_zeroize_call
  rw [c_zeroize_eq]

/-- C8: the primitive keeps no cross-call state: two calls with identical
arguments made on identical memory states produce identical memory
states, regardless of the histories of earlier calls that led to those
states. -/
theorem c_zeroize_no_cross_call_state (mem1 mem2 : Mem)
    (calls1 calls2 : List (Nat × Nat)) (s n : Nat)
    (h : runCalls mem1 calls1 = runCalls mem2 calls2) :
    c_zeroize (runCalls mem1 calls1) s n =
      c_zeroize (runCalls mem2 calls2) s n := by
  rw [h]

/-- C8 witness: after the one-call history [(0, 1)] from the all-0xFF
state, a call on (2, 3) gives the same memory as the same call after the
same history. -/
theorem c_zeroize_no_cross_call_state_witness :
    c_zeroize (runCalls mOnes [(0, 1)]) 2 3 =
      c_zeroize (runCalls mOnes [(0, 1)]) 2 3 :=
  c_zeroize_no_cross_call_state mOnes mOnes [(0, 1)] [(0, 1)] 2 3 rfl

/-- C9: zeroization decomposes over the region: for `k ≤ n`, zeroizing
`[s, s + k)` and then `[s + k, s + n)` yields exactly the memory state of
zeroizing `[s, s + n)` at once. -/
theorem c_zeroize_split (mem : Mem) (s n k : Nat) (h : k ≤ n) :
    c_zeroize (c_zeroize mem s k) (s + k) (n - k) = c_zeroize mem s n := by
  funext a
  simp only [c_zeroize_apply]
  split_ifs <;> first | rfl | (exfalso; omega)

/-- C9 witness: zeroizing 2 then 3 bytes at addresses 0 and 2 of the
all-0xFF state equals zeroizing 5 bytes at address 0. -/
theorem c_zeroize_split_witness :
    c_zeroize (c_zeroize mOnes 0 2) (0 + 2) (5 - 2) = c_zeroize mOnes 0 5 :=
  c_zeroize_split mOnes 0 5 2 (by decide)

/-- C10: erasure leaves no content-dependent residue: two memory states
that agree outside `[s, s + n)` — differing only in the region's (secret)
contents — produce identical whole-memory states after `c_zeroize(s, n)`. -/
theorem c_zeroize_secret_independent (mem1 mem2 : Mem) (s n : Nat)
    (h : ∀ a, a < s ∨ s + n ≤ a → mem1 a = mem2 a) :
    c_zeroize mem1 s n = c_zeroize mem2 s n := by
  funext a
  simp only [c_zeroize_apply]
  split_ifs with hc
  · rfl
  · exact h a (by omega)

/-- C10 witness: the all-0xFF state and the state holding the secret 7 on
`[2, 5)` coincide after `c_zeroize(2, 3)`. -/
theorem c_zeroize_secret_independent_witness :
    c_zeroize mOnes 2 3 = c_zeroize mSecret 2 3 :=
  c_zeroize_secret_independent mOnes mSecret 2 3 (by
    intro a h
    simp only [mOnes, mSecret]
    rw [if_neg (by omega)])
